import Mathlib

/-!
Verification development for the AttentionTrade repository (attention-momentum
markets).  The repository snapshot contains the web frontend (TypeScript), the
SQLite schema and the API contract; the FastAPI backend services
(`index_pipeline.py`, `demo_index.py`, pricing, lifecycle) are referenced by
the docs but are not part of the snapshot, so those components are modelled
from the specification and settled against that model.  Frontend logic
(`tradesToPositions`, the trading panel close logic, the trade guard) is
embedded directly from the TypeScript source.
-/

namespace AttentionTrade

/-- Trade / resolution side, `"up" | "down"` in the source. -/
inductive Side
  | up
  | down
deriving DecidableEq

/-- Event lifecycle status, `draft | proposed | open | rejected | resolved`
(schema.sql comment, api.md Event object).  `open` is a Lean keyword, hence
`open_`. -/
inductive Status
  | draft
  | proposed
  | open_
  | rejected
  | resolved
deriving DecidableEq

/-- Modelled from the spec: the lifecycle transition graph of §4.4
(draft → proposed, proposed → open | rejected, open → resolved); the
Event Lifecycle Manager itself is in the backend, which is absent from the
snapshot. -/
def stepAllowed : Status → Status → Bool
  | Status.draft, Status.proposed => true
  | Status.proposed, Status.open_ => true
  | Status.proposed, Status.rejected => true
  | Status.open_, Status.resolved => true
  | _, _ => false

/-- Reachability in the lifecycle graph: reflexive-transitive closure of the
allowed transitions. -/
def Reach (a b : Status) : Prop :=
  Relation.ReflTransGen (fun x y => stepAllowed x y = true) a b

/-- Modelled from the spec: the Event record of §3 / api.md, restricted to the
fields the claims touch.  Net positions come from the event_positions table
(schema.sql); trades is the per-event ledger. -/
structure EventState where
  name : String
  marketType : String
  demo : Bool
  status : Status
  windowStart : Nat
  windowEnd : Nat
  indexStart : ℚ
  indexCurrent : ℚ
  resolution : Option Side
  rejectReason : Option String
  netUp : ℚ
  netDown : ℚ
  trades : List (Side × ℚ)
deriving DecidableEq

/-- Trade submission error classes of §7: ValidationError (non-positive
amount) and StateConflict (trade on a non-open event). -/
inductive TradeError
  | validation
  | stateConflict
deriving DecidableEq

/-- Modelled from the spec: backend trade acceptance (§3 Trade invariant,
§4.3, §7; `POST /events/:id/trade` in api.md; the FastAPI handler is absent
from the snapshot).  Returns the (possibly unchanged) state together with an
optional error; an accepted trade appends to the ledger and bumps the
matching net total. -/
def submitTrade (e : EventState) (sd : Side) (amt : ℚ) :
    EventState × Option TradeError :=
  if amt ≤ 0 then (e, some TradeError.validation)
  else if e.status ≠ Status.open_ then (e, some TradeError.stateConflict)
  else
    ({ e with
        netUp := e.netUp + (if sd = Side.up then amt else 0),
        netDown := e.netDown + (if sd = Side.down then amt else 0),
        trades := e.trades ++ [(sd, amt)] },
      none)

/-- A trade submission result counts as accepted when no error was raised. -/
def accepted (r : EventState × Option TradeError) : Bool :=
  r.2.isNone

/-- Modelled from the spec: an index tick writes index_current only while the
event is open (§4.1, §5: once status leaves `open`, scheduled ticks are
dropped). -/
def tick (e : EventState) (v : ℚ) : EventState :=
  if e.status = Status.open_ then { e with indexCurrent := v } else e

/-- Modelled from the spec: the resolution rule of §4.4 — `resolution = "up"`
iff `index_current > index_start`, strictly; equality resolves `"down"`.
The frontend DEFAULT_RULES text states the same policy. -/
def resolveOutcome (cur start : ℚ) : Side :=
  if start < cur then Side.up else Side.down

/-- A recurrence intent: the topic and market type of the follow-up event
spawned when a non-demo event resolves (§4.4, api.md "Recurring"). -/
structure Recurrence where
  name : String
  marketType : String
deriving DecidableEq

/-- Modelled from the spec: the scheduler-driven `open → resolved` transition
(§4.4).  Fires only for an open event whose window has ended; sets the
resolution from the index trajectory and emits a recurrence intent unless the
event is a demo. -/
def resolveEvent (now : Nat) (e : EventState) :
    Option (EventState × Option Recurrence) :=
  if e.status = Status.open_ ∧ e.windowEnd ≤ now then
    some
      ({ e with
          status := Status.resolved,
          resolution := some (resolveOutcome e.indexCurrent e.indexStart) },
        if e.demo then none else some ⟨e.name, e.marketType⟩)
  else none

/-- Modelled from the spec: the fresh Event created from a recurrence intent
(§4.4: "a new Event for the same topic and market type is created
immediately on resolution", starting as draft/proposed). -/
def newEventOf (r : Recurrence) : EventState :=
  { name := r.name
    marketType := r.marketType
    demo := false
    status := Status.draft
    windowStart := 0
    windowEnd := 1
    indexStart := 100
    indexCurrent := 100
    resolution := none
    rejectReason := none
    netUp := 0
    netDown := 0
    trades := [] }

/-- The list of events spawned by a resolution result. -/
def spawned (o : Option (EventState × Option Recurrence)) : List Recurrence :=
  match o with
  | none => []
  | some (_, none) => []
  | some (_, some r) => [r]

/-- The resolution recorded by a resolution result, if any. -/
def resolutionOf (o : Option (EventState × Option Recurrence)) : Option Side :=
  match o with
  | none => none
  | some (e', _) => e'.resolution

/-! ### Pricing engine

Modelled from the spec (§4.3): `price_up = 1 / (1 + exp(−k·(net_up −
net_down)/scale))`, `price_down = 1 − price_up`; the backend implementation
is absent from the snapshot (schema.sql only notes "sigmoid pricing"). -/

/-- Modelled from the spec: the logistic price of the up side, with engine
parameters `k` (steepness) and `scale` (volume normalizer). -/
noncomputable def priceUp (k scale netUp netDown : ℝ) : ℝ :=
  1 / (1 + Real.exp (-(k * (netUp - netDown) / scale)))

/-- Modelled from the spec: `price_down = 1 − price_up`. -/
noncomputable def priceDown (k scale netUp netDown : ℝ) : ℝ :=
  1 - priceUp k scale netUp netDown

/-! ### Index pipeline

Modelled from the spec (§4.1) and api.md "Attention Index": `index = 100 +
10 × Σ_channel weight_c × log1p(max(0, activity_c − baseline_c) / scale_c)`;
`backend/src/services/index_pipeline.py` is absent from the snapshot. -/

/-- One configured channel with its weight, normalizing scale, current
activity count and the baseline fixed at creation. -/
structure Channel where
  weight : ℝ
  scale : ℝ
  activity : ℝ
  baseline : ℝ

/-- `log1p x = log (1 + x)`, the log-scaling used by the index formula. -/
noncomputable def log1p (x : ℝ) : ℝ :=
  Real.log (1 + x)

/-- Modelled from the spec: a channel's contribution to the index — weight
times log1p of the clamped, scale-normalized activity delta. -/
noncomputable def contribution (c : Channel) : ℝ :=
  c.weight * log1p (max 0 (c.activity - c.baseline) / c.scale)

/-- Modelled from the spec: the index value for one tick, baseline 100 plus
10 times the weighted sum of channel contributions. -/
noncomputable def indexValue (cs : List Channel) : ℝ :=
  100 + 10 * (cs.map contribution).sum

/-! ### Demo synthetic generator

Modelled from the spec (§4.2) and api.md "Demo mode":
`index[t] = index[t-1] + reversion·(100 − index[t-1]) + momentum[t] +
noise[t]`, momentum decaying exponentially and occasionally re-seeded with a
burst drawn from a per-event pseudo-random stream seeded by
(event_id, tick_index); output clamped to [50, 200].
`backend/src/services/demo_index.py` is absent from the snapshot. -/

/-- Modelled from the spec: the per-event pseudo-random stream, a pure hash
of (event_id, tick_index) — never a shared global generator. -/
def demoSeed (eid tk : Nat) : Nat :=
  (eid * 2654435761 + tk * 40503 + 101) % 4294967296

/-- Modelled from the spec: per-tick noise in [−1, 1], drawn from the
per-event stream. -/
def demoNoise (eid tk : Nat) : ℚ :=
  ((demoSeed eid tk % 201 : Nat) : ℚ) / 100 - 1

/-- Modelled from the spec: the occasional momentum burst, re-seeded from the
per-event stream on roughly one tick in 13. -/
def demoBurst (eid tk : Nat) : ℚ :=
  if demoSeed eid tk % 13 = 0 then 5 * demoNoise eid tk else 0

/-- Clamp a value into [lo, hi]. -/
def clampQ (lo hi x : ℚ) : ℚ :=
  if x ≤ lo then lo else if hi ≤ x then hi else x

/-- Modelled from the spec: one generator step — momentum decays by 4/5 and
may receive a burst; the index mean-reverts to 100 with reversion 1/10, adds
momentum and noise, and is clamped to [50, 200]. -/
def demoStep (eid tk : Nat) (prev : ℚ × ℚ) : ℚ × ℚ :=
  let momentum := (4 / 5) * prev.2 + demoBurst eid tk
  let value :=
    clampQ 50 200 (prev.1 + (1 / 10) * (100 - prev.1) + momentum + demoNoise eid tk)
  (value, momentum)

/-- Modelled from the spec: the generator state (index value, momentum) after
`tk` ticks, starting from index 100 and zero momentum. -/
def demoState (eid : Nat) : Nat → ℚ × ℚ
  | 0 => (100, 0)
  | n + 1 => demoStep eid (n + 1) (demoState eid n)

/-- The synthetic index value for (event_id, tick_index). -/
def demoIndexValue (eid tk : Nat) : ℚ :=
  (demoState eid tk).1

/-- The ambient conditions of one run of the demo generator: wall-clock
readings per tick and the ids of concurrently running demo events.  Per the
spec the generator is a function of (event_id, tick_index) only, so a run's
output may not depend on these. -/
structure DemoEnv where
  wallClockMs : Nat → Nat
  concurrentEventIds : List Nat

/-- The value produced for (event_id, tick_index) by a run of the demo
generator under ambient conditions `env`. -/
def demoRunValue (_env : DemoEnv) (eid tk : Nat) : ℚ :=
  demoIndexValue eid tk

/-- The index trajectory over the first `n` ticks of a run. -/
def demoTrajectory (env : DemoEnv) (eid n : Nat) : List ℚ :=
  (List.range n).map (demoRunValue env eid)

/-! ### Profile positions (frontend, `tradesToPositions`)

Embedded from the Profile page source: one `PositionRow` per event, built by
folding the trader's trades in `createdAt` order.  Amounts and prices are
rationals; `createdAt` is an epoch-milliseconds timestamp. -/

/-- `Math.abs`, written out so that it evaluates by kernel reduction. -/
def absQ (x : ℚ) : ℚ :=
  if x < 0 then -x else x

/-- A trade as returned by `GET /profile/trades` (`ProfileTrade` in the
api client), with the optional `executionPrice` the Profile page reads. -/
structure ProfileTrade where
  eventId : String
  eventName : String
  side : Side
  amount : ℚ
  createdAt : Nat
  status : String
  resolution : Option Side
  executionPrice : Option ℚ
deriving DecidableEq

/-- Stable insertion into a list ascending by `createdAt` (a new trade goes
after existing trades with the same timestamp), matching the stable
ascending sort `[...trades].sort((a, b) => a.createdAt - b.createdAt)`. -/
def insertByTime (t : ProfileTrade) : List ProfileTrade → List ProfileTrade
  | [] => [t]
  | h :: rest =>
    if h.createdAt ≤ t.createdAt then h :: insertByTime t rest
    else t :: h :: rest

/-- Stable sort of trades ascending by `createdAt`. -/
def sortByTime (ts : List ProfileTrade) : List ProfileTrade :=
  ts.foldl (fun acc t => insertByTime t acc) []

/-- The per-event accumulator of `tradesToPositions` (the `byEvent` map
entry): name, status, resolution, running up/down totals, last trade time and
the recorded close execution price. -/
structure Agg where
  name : String
  status : String
  resolution : Option Side
  up : ℚ
  down : ℚ
  lastAt : Nat
  closePx : Option ℚ
deriving DecidableEq

/-- One step of the `tradesToPositions` fold: add the trade's amount to its
side's running total, track the latest trade time, and record the trade's
execution price as the close price whenever the totals become equal. -/
def stepAgg (cur : Option Agg) (t : ProfileTrade) : Agg :=
  let prevUp := match cur with | none => 0 | some c => c.up
  let prevDown := match cur with | none => 0 | some c => c.down
  let up := prevUp + (if t.side = Side.up then t.amount else 0)
  let down := prevDown + (if t.side = Side.down then t.amount else 0)
  let lastAt :=
    match cur with
    | none => t.createdAt
    | some c => if c.lastAt < t.createdAt then t.createdAt else c.lastAt
  let closePx :=
    if up = down ∧ t.executionPrice.isSome then t.executionPrice
    else match cur with | none => none | some c => c.closePx
  { name := t.eventName
    status := t.status
    resolution := t.resolution
    up := up
    down := down
    lastAt := lastAt
    closePx := closePx }

/-- Update an association list at a key with a function of the current entry,
preserving insertion order (the behaviour of the JS `Map`). -/
def updateAssoc (m : List (String × Agg)) (k : String)
    (f : Option Agg → Agg) : List (String × Agg) :=
  match m with
  | [] => [(k, f none)]
  | (k', a) :: rest =>
    if k' = k then (k', f (some a)) :: rest
    else (k', a) :: updateAssoc rest k f

/-- The `byEvent` map of `tradesToPositions`: fold the (time-sorted) trades
into per-event accumulators. -/
def buildByEvent (ts : List ProfileTrade) : List (String × Agg) :=
  ts.foldl (fun m t => updateAssoc m t.eventId (fun cur => stepAgg cur t)) []

/-- The outcome column of a position row. -/
inductive Outcome
  | won
  | lost
  | openPos
  | closedPos
deriving DecidableEq

/-- A row of the Positions table (`PositionRow` in the Profile page). -/
structure PositionRow where
  eventId : String
  eventName : String
  status : String
  resolution : Option Side
  netUp : ℚ
  netDown : ℚ
  netSize : ℚ
  netSide : Side
  lastTradeAt : Nat
  outcome : Outcome
  pnl : Option ℚ
deriving DecidableEq

/-- The row built from one event's accumulator: resolved events settle 1:1 on
net size by whether the resolution matches the net side (ties going to up);
otherwise a net-zero position is Closed with pnl
`closeAmount * (1 - closePrice) - closeAmount` (0 when no close price was
recorded); otherwise the position is Open with no pnl. -/
def rowOf (eid : String) (p : Agg) : PositionRow :=
  let netSize := absQ (p.up - p.down)
  let netSide := if p.down ≤ p.up then Side.up else Side.down
  let core : Outcome × Option ℚ :=
    match p.resolution with
    | some r =>
      if p.status = "resolved" then
        (if r = netSide then Outcome.won else Outcome.lost,
          some (if r = netSide then netSize else -netSize))
      else if netSize = 0 then
        (Outcome.closedPos,
          some (match p.closePx with
            | some px => p.up * (1 - px) - p.up
            | none => 0))
      else (Outcome.openPos, none)
    | none =>
      if netSize = 0 then
        (Outcome.closedPos,
          some (match p.closePx with
            | some px => p.up * (1 - px) - p.up
            | none => 0))
      else (Outcome.openPos, none)
  { eventId := eid
    eventName := p.name
    status := p.status
    resolution := p.resolution
    netUp := p.up
    netDown := p.down
    netSize := netSize
    netSide := netSide
    lastTradeAt := p.lastAt
    outcome := core.1
    pnl := core.2 }

/-- Stable insertion into a list descending by `lastTradeAt`, matching the
final `rows.sort((a, b) => b.lastTradeAt - a.lastTradeAt)`. -/
def insertRowDesc (r : PositionRow) : List PositionRow → List PositionRow
  | [] => [r]
  | h :: rest =>
    if r.lastTradeAt ≤ h.lastTradeAt then h :: insertRowDesc r rest
    else r :: h :: rest

/-- Stable sort of rows descending by `lastTradeAt`. -/
def sortRowsDesc (rs : List PositionRow) : List PositionRow :=
  rs.foldl (fun acc r => insertRowDesc r acc) []

/-- `tradesToPositions` from the Profile page: sort the trades by time, fold
them into per-event accumulators, build one row per event and sort the rows
by last trade time, newest first. -/
def tradesToPositions (ts : List ProfileTrade) : List PositionRow :=
  sortRowsDesc ((buildByEvent (sortByTime ts)).map (fun kv => rowOf kv.1 kv.2))

/-! ### Trading panel close logic (frontend)

Embedded from `trading-panel.tsx`: closing a position submits a trade on the
side opposite the net exposure, for the absolute net amount. -/

/-- `closeAmount = Math.abs(positionUp - positionDown)`. -/
def closeAmount (pu pd : ℚ) : ℚ :=
  absQ (pu - pd)

/-- `closeSide = positionUp >= positionDown ? "down" : "up"`. -/
def closeSide (pu pd : ℚ) : Side :=
  if pd ≤ pu then Side.down else Side.up

/-- The side a position is net long, `positionUp >= positionDown ? "up" :
"down"` (as in `netSide` of the Profile page). -/
def netSideOf (pu pd : ℚ) : Side :=
  if pd ≤ pu then Side.up else Side.down

/-- The opposite side. -/
def oppositeSide : Side → Side
  | Side.up => Side.down
  | Side.down => Side.up

/-- The trade `handleClosePosition` submits: `onTrade(closeSide,
closeAmount)`. -/
def closeOrder (pu pd : ℚ) : Side × ℚ :=
  (closeSide pu pd, closeAmount pu pd)

/-- The running up-total held before a `stepAgg` step (`cur?.up ?? 0`). -/
def aggUp (cur : Option Agg) : ℚ :=
  match cur with
  | none => 0
  | some c => c.up

/-- The running down-total held before a `stepAgg` step (`cur?.down ?? 0`). -/
def aggDown (cur : Option Agg) : ℚ :=
  match cur with
  | none => 0
  | some c => c.down

/-! ### Sample states used by the witness theorems -/

/-- An open, non-demo event whose index has risen above its start. -/
def eOpenW : EventState :=
  ⟨"Topic", "1h", false, Status.open_, 0, 10, 100, 103, none, none, 0, 0, []⟩

/-- An open event whose index sits exactly at its start value. -/
def eTieW : EventState :=
  ⟨"Topic", "1h", false, Status.open_, 0, 10, 100, 100, none, none, 0, 0, []⟩

/-- A resolved event. -/
def eResolvedW : EventState :=
  ⟨"Topic", "1h", false, Status.resolved, 0, 10, 100, 103, some Side.up, none, 5, 0, [(Side.up, 5)]⟩

/-- A sample profile trade. -/
def tradeW : ProfileTrade :=
  ⟨"e1", "Topic", Side.up, 5, 1, "open", none, none⟩

/-! ### Claims -/

/-- Claim C2: for an event resolved at window end, the resolution is `up` iff
`index_current` is strictly greater than `index_start`; exact equality
resolves `down`. -/
theorem c2_resolution_rule (now : Nat) (e : EventState)
    (h1 : e.status = Status.open_) (h2 : e.windowEnd ≤ now) :
    (resolutionOf (resolveEvent now e) = some Side.up ↔ e.indexStart < e.indexCurrent)
    ∧ (e.indexCurrent = e.indexStart →
        resolutionOf (resolveEvent now e) = some Side.down) := by
  constructor
  · by_cases hlt : e.indexStart < e.indexCurrent <;>
      simp [resolveEvent, h1, h2, resolutionOf, resolveOutcome, hlt]
  · intro heq
    simp [resolveEvent, h1, h2, resolutionOf, resolveOutcome, heq]

/-- Witness for C2 at a concrete tied event. -/
theorem c2_resolution_rule_witness :
    resolutionOf (resolveEvent 10 eTieW) = some Side.down :=
  (c2_resolution_rule 10 eTieW rfl (by decide)).2 rfl

/-- Helper for C3: every status reachable from `open` is `open` or
`resolved`. -/
theorem reach_from_open {s : Status} (h : Reach Status.open_ s) :
    s = Status.open_ ∨ s = Status.resolved := by
  induction h with
  | refl => exact Or.inl rfl
  | @tail b c hab hbc ih =>
    rcases ih with rfl | rfl
    · cases c <;> simp [stepAllowed] at hbc ⊢
    · cases c <;> simp [stepAllowed] at hbc

/-- Claim C3: in the lifecycle state machine, from `proposed` the only
successors are `open` and `rejected`; from `open` the only reachable states
are `open` itself and the terminal `resolved`; `rejected` and `resolved`
admit no transition, and on a terminal event no operation writes to the
resolution, the index, or the trades. -/
theorem c3_lifecycle (e : EventState) :
    (∀ s, stepAllowed Status.proposed s = true → s = Status.open_ ∨ s = Status.rejected)
    ∧ (∀ s, Reach Status.open_ s → s = Status.open_ ∨ s = Status.resolved)
    ∧ (∀ s, stepAllowed Status.rejected s = false)
    ∧ (∀ s, stepAllowed Status.resolved s = false)
    ∧ ((e.status = Status.rejected ∨ e.status = Status.resolved) →
        (∀ sd amt, (submitTrade e sd amt).1 = e
          ∧ (submitTrade e sd amt).2.isSome = true)
        ∧ (∀ v, tick e v = e)
        ∧ (∀ now, resolveEvent now e = none)) := by
  have hA : ∀ s, stepAllowed Status.proposed s = true →
      s = Status.open_ ∨ s = Status.rejected := by
    intro s h
    cases s <;> simp_all [stepAllowed]
  have hC : ∀ s, stepAllowed Status.rejected s = false := by
    intro s; cases s <;> rfl
  have hD : ∀ s, stepAllowed Status.resolved s = false := by
    intro s; cases s <;> rfl
  refine ⟨hA, fun s h => reach_from_open h, hC, hD, ?_⟩
  intro hterm
  have hne : e.status ≠ Status.open_ := by
    rcases hterm with h | h <;> simp [h]
  refine ⟨?_, ?_, ?_⟩
  · intro sd amt
    by_cases h0 : amt ≤ 0 <;> simp [submitTrade, h0, hne]
  · intro v
    simp [tick, hne]
  · intro now
    simp [resolveEvent, hne]

/-- Witness for C3 at a concrete resolved event. -/
theorem c3_lifecycle_witness : tick eResolvedW 55 = eResolvedW :=
  ((c3_lifecycle eResolvedW).2.2.2.2 (Or.inr rfl)).2.1 55

/-- Claim C4: a well-formed trade submission is accepted iff the event is
open; in any other status it fails with a StateConflict and the event state
is returned unchanged. -/
theorem c4_trade_gate (e : EventState) (sd : Side) (amt : ℚ) (hamt : 0 < amt) :
    (accepted (submitTrade e sd amt) = true ↔ e.status = Status.open_)
    ∧ (e.status ≠ Status.open_ →
        submitTrade e sd amt = (e, some TradeError.stateConflict)) := by
  have h0 : ¬ amt ≤ 0 := not_le.mpr hamt
  by_cases hst : e.status = Status.open_ <;>
    simp [submitTrade, accepted, h0, hst]

/-- Witness for C4 at a concrete open event. -/
theorem c4_trade_gate_witness : accepted (submitTrade eOpenW Side.up 5) = true :=
  (c4_trade_gate eOpenW Side.up 5 (by norm_num)).1.mpr rfl

/-- Claim C5: resolving an open non-demo event spawns exactly one follow-up
event, for the same topic and market type, starting as draft/proposed;
resolving a demo event spawns none. -/
theorem c5_recurrence (now : Nat) (e : EventState)
    (h1 : e.status = Status.open_) (h2 : e.windowEnd ≤ now) :
    (spawned (resolveEvent now e)).length = (if e.demo then 0 else 1)
    ∧ ∀ r ∈ spawned (resolveEvent now e),
        r.name = e.name ∧ r.marketType = e.marketType
        ∧ ((newEventOf r).status = Status.draft
            ∨ (newEventOf r).status = Status.proposed) := by
  cases hd : e.demo <;>
    simp [resolveEvent, h1, h2, spawned, hd, newEventOf]

/-- Witness for C5 at a concrete open non-demo event. -/
theorem c5_recurrence_witness :
    (spawned (resolveEvent 10 eOpenW)).length = (if eOpenW.demo then 0 else 1) :=
  (c5_recurrence 10 eOpenW rfl (by decide)).1

/-- Claim C8: the running net totals never decrease — one aggregation step of
`tradesToPositions` only adds to `up`/`down`; an accepted backend trade only
appends to the ledger and bumps the net totals; and closing a position
submits an opposite-side trade for the absolute net amount. -/
theorem c8_positions_monotone :
    (∀ (cur : Option Agg) (t : ProfileTrade), 0 ≤ t.amount →
        aggUp cur ≤ (stepAgg cur t).up ∧ aggDown cur ≤ (stepAgg cur t).down)
    ∧ (∀ (e : EventState) (sd : Side) (amt : ℚ),
        e.netUp ≤ (submitTrade e sd amt).1.netUp
        ∧ e.netDown ≤ (submitTrade e sd amt).1.netDown
        ∧ (accepted (submitTrade e sd amt) = true →
            (submitTrade e sd amt).1.trades = e.trades ++ [(sd, amt)]))
    ∧ (∀ pu pd : ℚ,
        closeOrder pu pd = (oppositeSide (netSideOf pu pd), absQ (pu - pd))) := by
  refine ⟨?_, ?_, ?_⟩
  · intro cur t h
    cases cur <;> cases ht : t.side <;>
      simp [stepAgg, aggUp, aggDown, ht] <;> linarith
  · intro e sd amt
    by_cases h0 : amt ≤ 0
    · simp [submitTrade, h0, accepted]
    · by_cases hst : e.status = Status.open_
      · have hamt : (0:ℚ) < amt := lt_of_not_le h0
        cases sd <;> simp [submitTrade, h0, hst, accepted] <;> linarith
      · simp [submitTrade, h0, hst, accepted]
  · intro pu pd
    by_cases h : pd ≤ pu <;>
      simp [closeOrder, closeSide, closeAmount, netSideOf, oppositeSide, h]

/-- Witness for C8 at a concrete aggregation step. -/
theorem c8_positions_monotone_witness :
    aggUp none ≤ (stepAgg none tradeW).up :=
  (c8_positions_monotone.1 none tradeW (by norm_num [tradeW])).1

/-- Claim C9: the demo synthetic generator is a deterministic function of
(event_id, tick_index): two runs under arbitrary wall-clock readings and
arbitrary sets of concurrently running demo events produce identical values
and identical trajectories. -/
theorem c9_demo_determinism (env1 env2 : DemoEnv) (eid n : Nat) :
    demoRunValue env1 eid n = demoRunValue env2 eid n
    ∧ demoTrajectory env1 eid n = demoTrajectory env2 eid n :=
  ⟨rfl, rfl⟩

/-- Claim C1: for any engine parameters k, scale > 0 and net positions
net_up, net_down ≥ 0, the two prices sum to 1 exactly, both lie strictly
between 0 and 1, and equal net positions price both sides at exactly 1/2. -/
theorem c1_pricing_complementary (k s nu nd : ℝ) (hk : 0 < k) (hs : 0 < s)
    (hnu : 0 ≤ nu) (hnd : 0 ≤ nd) :
    priceUp k s nu nd + priceDown k s nu nd = 1
    ∧ 0 < priceUp k s nu nd ∧ priceUp k s nu nd < 1
    ∧ 0 < priceDown k s nu nd ∧ priceDown k s nu nd < 1
    ∧ (nu = nd → priceUp k s nu nd = 1 / 2 ∧ priceDown k s nu nd = 1 / 2) := by
  have hE : 0 < Real.exp (-(k * (nu - nd) / s)) := Real.exp_pos _
  have hden : 0 < 1 + Real.exp (-(k * (nu - nd) / s)) := by linarith
  have hup : 0 < priceUp k s nu nd := by
    unfold priceUp
    exact div_pos one_pos hden
  have hup1 : priceUp k s nu nd < 1 := by
    unfold priceUp
    rw [div_lt_one hden]
    linarith
  have hsum : priceUp k s nu nd + priceDown k s nu nd = 1 := by
    unfold priceDown
    ring
  have hhalf : nu = nd → priceUp k s nu nd = 1 / 2 ∧ priceDown k s nu nd = 1 / 2 := by
    intro h
    have : priceUp k s nu nd = 1 / 2 := by
      unfold priceUp
      rw [h, sub_self, mul_zero, zero_div, neg_zero, Real.exp_zero]
      norm_num
    exact ⟨this, by unfold priceDown; rw [this]; norm_num⟩
  exact ⟨hsum, hup, hup1, by unfold priceDown; linarith, by unfold priceDown; linarith, hhalf⟩

/-- Witness for C1 at k = s = 1 and flat positions. -/
theorem c1_pricing_complementary_witness :
    priceUp 1 1 0 0 + priceDown 1 1 0 0 = 1 ∧ priceUp 1 1 0 0 = 1 / 2 :=
  ⟨(c1_pricing_complementary 1 1 0 0 one_pos one_pos le_rfl le_rfl).1,
    ((c1_pricing_complementary 1 1 0 0 one_pos one_pos le_rfl le_rfl).2.2.2.2.2 rfl).1⟩

/-- Claim C7: with k, scale > 0 the pricing transform is strictly monotone in
the net difference: a strictly larger net_up − net_down gives a strictly
larger price_up. -/
theorem c7_pricing_strict_mono (k s nu1 nd1 nu2 nd2 : ℝ) (hk : 0 < k)
    (hs : 0 < s) (h : nu2 - nd2 < nu1 - nd1) :
    priceUp k s nu2 nd2 < priceUp k s nu1 nd1 := by
  have h1 : k * (nu2 - nd2) / s < k * (nu1 - nd1) / s :=
    (div_lt_div_iff_of_pos_right hs).mpr (mul_lt_mul_of_pos_left h hk)
  have h2 : Real.exp (-(k * (nu1 - nd1) / s)) < Real.exp (-(k * (nu2 - nd2) / s)) :=
    Real.exp_lt_exp.mpr (by linarith)
  have hd1 : 0 < 1 + Real.exp (-(k * (nu1 - nd1) / s)) := by
    have := Real.exp_pos (-(k * (nu1 - nd1) / s))
    linarith
  unfold priceUp
  exact one_div_lt_one_div_of_lt hd1 (by linarith)

/-- Witness for C7 at k = s = 1, comparing net differences 1 and 0. -/
theorem c7_pricing_strict_mono_witness : priceUp 1 1 0 0 < priceUp 1 1 1 0 :=
  c7_pricing_strict_mono 1 1 1 0 0 0 one_pos one_pos (by norm_num)

/-- Helper for C6: a channel with non-negative weight and positive scale
contributes a non-negative delta. -/
theorem contribution_nonneg (c : Channel) (hw : 0 ≤ c.weight)
    (hsc : 0 < c.scale) : 0 ≤ contribution c := by
  have hx : (0:ℝ) ≤ max 0 (c.activity - c.baseline) / c.scale :=
    div_nonneg (le_max_left _ _) hsc.le
  have hl : 0 ≤ log1p (max 0 (c.activity - c.baseline) / c.scale) :=
    Real.log_nonneg (by linarith)
  exact mul_nonneg hw hl

/-- Claim C6: with non-negative weights and positive scales, every channel's
contribution to the index is non-negative, so the computed index value never
drops below the 100 baseline (the index_start fixed at open). -/
theorem c6_index_above_baseline (cs : List Channel)
    (h : ∀ c ∈ cs, 0 ≤ c.weight ∧ 0 < c.scale) :
    (∀ c ∈ cs, 0 ≤ contribution c) ∧ 100 ≤ indexValue cs := by
  have hc : ∀ c ∈ cs, 0 ≤ contribution c := by
    intro c hcm
    exact contribution_nonneg c (h c hcm).1 (h c hcm).2
  have hsum : 0 ≤ (cs.map contribution).sum := by
    apply List.sum_nonneg
    intro x hx
    obtain ⟨c, hcm, rfl⟩ := List.mem_map.mp hx
    exact hc c hcm
  refine ⟨hc, ?_⟩
  unfold indexValue
  linarith

/-- A sample channel: weight 1, scale 1, activity at baseline. -/
def channelW : Channel :=
  ⟨1, 1, 0, 0⟩

/-- Witness for C6 at a single quiet channel. -/
theorem c6_index_above_baseline_witness : 100 ≤ indexValue [channelW] :=
  (c6_index_above_baseline [channelW]
    (by
      intro c hcm
      rw [List.mem_singleton] at hcm
      subst hcm
      exact ⟨by norm_num [channelW], by norm_num [channelW]⟩)).2

/-- An up trade of 5 on event e1, which later resolved up. -/
def tradeCexA : ProfileTrade :=
  ⟨"e1", "Topic", Side.up, 5, 1, "resolved", some Side.up, none⟩

/-- The closing down trade of 5 on event e1 at execution price 3/5. -/
def tradeCexB : ProfileTrade :=
  ⟨"e1", "Topic", Side.down, 5, 2, "resolved", some Side.up, some (3/5)⟩

/-- Counterexample for C10 as stated: on a resolved event a fully-closed
position with recorded close execution price 3/5 and closeAmount 5 gets
pnl 0 from `tradesToPositions` (the resolved branch wins), not
−closeAmount × p = −3 as the claim's closed-position clause demands. -/
theorem c10_settlement_counterexample :
    (tradesToPositions [tradeCexA, tradeCexB]).map PositionRow.pnl = [some 0]
    ∧ (buildByEvent (sortByTime [tradeCexA, tradeCexB])).map
        (fun kv => kv.2.closePx) = [some (3/5)]
    ∧ tradeCexA.status = "resolved"
    ∧ some (0:ℚ) ≠ some (-(5 * (3/5) : ℚ)) := by
  refine ⟨?_, ?_, rfl, by norm_num⟩
  · simp +decide [tradesToPositions, sortByTime, insertByTime, buildByEvent,
      updateAssoc, stepAgg, rowOf, sortRowsDesc, insertRowDesc, absQ,
      tradeCexA, tradeCexB]
  · simp +decide [sortByTime, insertByTime, buildByEvent, updateAssoc, stepAgg,
      tradeCexA, tradeCexB]

/-- Claim C10 (amended): on an event that is resolved with a recorded
resolution and a non-zero net position, `tradesToPositions` settles 1:1 on
net size — outcome Won with pnl +|net_up − net_down| iff the resolution
equals the net side (ties counting as up), else Lost with the negated size;
on an event that is NOT resolved (or has no resolution), a fully-closed
position with recorded close execution price p gets pnl −closeAmount × p,
and 0 when no close price was recorded; and on a resolved event a
fully-closed position settles with pnl 0 regardless of any recorded close
price, the outcome being Won iff the resolution is up (the tie rule). -/
theorem c10_settlement (eid : String) (p : Agg) :
    (∀ r, p.status = "resolved" → p.resolution = some r → p.up ≠ p.down →
      ((rowOf eid p).outcome = Outcome.won ↔ r = netSideOf p.up p.down)
      ∧ (rowOf eid p).pnl =
          some (if r = netSideOf p.up p.down then absQ (p.up - p.down)
                else -absQ (p.up - p.down)))
    ∧ (¬ (p.status = "resolved" ∧ p.resolution.isSome = true) → p.up = p.down →
        (∀ px, p.closePx = some px → (rowOf eid p).pnl = some (-(p.up * px)))
        ∧ (p.closePx = none → (rowOf eid p).pnl = some 0))
    ∧ (∀ r, p.status = "resolved" → p.resolution = some r → p.up = p.down →
        (rowOf eid p).pnl = some 0
        ∧ ((rowOf eid p).outcome = Outcome.won ↔ r = Side.up)) := by
  refine ⟨?_, ?_, ?_⟩
  · intro r hs hr _hne
    by_cases hrx : r = netSideOf p.up p.down <;>
      simp [rowOf, hr, hs, netSideOf, hrx] at hrx ⊢
  · intro hnr hud
    have hsz : absQ (p.up - p.down) = 0 := by
      simp [absQ, hud]
    constructor
    · intro px hpx
      cases hres : p.resolution with
      | none =>
        simp [rowOf, hres, hsz, hpx]
        ring
      | some r =>
        have hst : ¬ p.status = "resolved" := by
          intro hcon
          exact hnr ⟨hcon, by simp [hres]⟩
        simp [rowOf, hres, hst, hsz, hpx]
        ring
    · intro hnone
      cases hres : p.resolution with
      | none => simp [rowOf, hres, hsz, hnone]
      | some r =>
        have hst : ¬ p.status = "resolved" := by
          intro hcon
          exact hnr ⟨hcon, by simp [hres]⟩
        simp [rowOf, hres, hst, hsz, hnone]
  · intro r hs hr hud
    have hle : p.down ≤ p.up := le_of_eq hud.symm
    have hsz : absQ (p.up - p.down) = 0 := by
      simp [absQ, hud]
    by_cases hrx : r = Side.up <;>
      simp [rowOf, hr, hs, hle, hrx, hsz]

/-- A resolved per-event accumulator with a non-zero net position. -/
def aggW : Agg :=
  ⟨"Topic", "resolved", some Side.up, 5, 2, 9, none⟩

/-- Witness for the amended C10 at a concrete resolved accumulator. -/
theorem c10_settlement_witness :
    (rowOf ("e1") aggW).pnl =
      some (if Side.up = netSideOf aggW.up aggW.down then absQ (aggW.up - aggW.down)
            else -absQ (aggW.up - aggW.down)) :=
  ((c10_settlement ("e1") aggW).1 Side.up rfl rfl (by norm_num [aggW])).2

end AttentionTrade
